import Mathlib

/-!
Shallow embedding of the notes-management core of `nestjs-notes`
(backend/src/notes/notes.service.ts, the Prisma schema migration, and the
`GetNotesQueryDto` validation), together with theorems settling the frozen
claims about its access-control, query-construction and lifecycle logic.

Modelling conventions:
* integer ids and timestamps are `Nat`; nullable columns are `Option`;
* a Prisma `findFirst where` is `List.find?` with the where-object's
  denotation: fields at one level of a where-object conjoin, an `OR` key
  is a disjunction, and `relation: { some: P }` is an existential over the
  related rows;
* thrown `ForbiddenException` / `NotFoundException` become `Except` errors
  (`ApiError.permissionDenied` / `ApiError.notFound`).
-/

namespace NestjsNotes

/-- Prisma enum `AccessType` (migration `CREATE TYPE "AccessType"`). -/
inductive AccessType where
  | VIEW
  | EDIT
deriving DecidableEq, Repr

/-- A row of the `users` table (the fields the notes service reads:
relation `owner` selects id, name, email; soft delete uses deletedAt). -/
structure User where
  id : Nat
  name : Option String
  email : String
  deletedAt : Option Nat
deriving DecidableEq, Repr

/-- A row of the `notes` table (migration `CREATE TABLE "notes"`). -/
structure Note where
  id : Nat
  title : String
  content : String
  isPublic : Bool
  createdAt : Nat
  updatedAt : Nat
  deletedAt : Option Nat
  ownerId : Nat
  createdBy : Nat
  updatedBy : Nat
deriving DecidableEq, Repr

/-- A row of the `user_note_access` table (the `AccessGrant` junction
entity of the spec). -/
structure AccessGrant where
  id : Nat
  userId : Nat
  noteId : Nat
  accessType : AccessType
  createdAt : Nat
  updatedAt : Nat
  deletedAt : Option Nat
deriving DecidableEq, Repr

/-- The persistent store the service queries: the three tables. -/
structure Store where
  users : List User
  notes : List Note
  grants : List AccessGrant
deriving Repr

/-- The error taxonomy surfaced by the service: `ForbiddenException`
(PermissionDenied) and `NotFoundException` (NotFound), each carrying its
message string. -/
inductive ApiError where
  | permissionDenied (msg : String)
  | notFound (msg : String)
deriving DecidableEq, Repr

/-- Denotation of the nested relation filter
`noteAccess: { some: { userId, deletedAt: null } }` (with an optional
`accessType` equality) evaluated on note `n` against store `st`. -/
def noteAccessSome (st : Store) (n : Note) (userId : Nat)
    (accessType : Option AccessType) : Bool :=
  st.grants.any fun g =>
    g.noteId == n.id && g.userId == userId && g.deletedAt.isNone &&
      (match accessType with
       | none => true
       | some t => g.accessType == t)

/-- `ensureUserOwnsNote` (notes.service.ts): `findFirst` for a row with
`id = noteId, ownerId = userId, deletedAt: null`; throws
`ForbiddenException` when none matches. -/
def ensureUserOwnsNote (st : Store) (noteId userId : Nat) :
    Except ApiError Unit :=
  match st.notes.find? (fun n =>
      n.id == noteId && n.ownerId == userId && n.deletedAt.isNone) with
  | some _ => .ok ()
  | none => .error (.permissionDenied "You can only delete notes you own")

/-- `ensureUserCanEditNote` (notes.service.ts): `findFirst` for a
non-deleted row with `id = noteId` that the user owns or holds an active
EDIT grant on; throws `ForbiddenException` when none matches. -/
def ensureUserCanEditNote (st : Store) (noteId userId : Nat) :
    Except ApiError Unit :=
  match st.notes.find? (fun n =>
      n.id == noteId && n.deletedAt.isNone &&
        (n.ownerId == userId || noteAccessSome st n userId (some .EDIT))) with
  | some _ => .ok ()
  | none =>
      .error (.permissionDenied "You do not have edit access to this note")

/-- `ensureUserCanViewNote` (notes.service.ts): `findFirst` for a
non-deleted row with `id = noteId` that the user owns, holds any active
grant on, or that is public; throws `ForbiddenException` when none
matches. -/
def ensureUserCanViewNote (st : Store) (noteId userId : Nat) :
    Except ApiError Unit :=
  match st.notes.find? (fun n =>
      n.id == noteId && n.deletedAt.isNone &&
        (n.ownerId == userId || noteAccessSome st n userId none ||
          n.isPublic)) with
  | some _ => .ok ()
  | none => .error (.permissionDenied "You do not have access to this note")

/-- Spec-side predicate for `authorizeView` (spec 4.1, written from the
spec words): the note is non-deleted AND (owner OR an active grant with
ANY accessType OR public). -/
def authorizeViewSpec (st : Store) (noteId userId : Nat) : Prop :=
  ∃ n ∈ st.notes, n.id = noteId ∧ n.deletedAt = none ∧
    (n.ownerId = userId ∨
      (∃ g ∈ st.grants, g.userId = userId ∧ g.noteId = noteId ∧
        g.deletedAt = none) ∨
      n.isPublic = true)

/-! ### Concrete fixtures for witnesses and counterexamples -/

/-- Active user 1 ("Alice"), used in concrete instances. -/
def u1 : User := ⟨1, some "Alice", "alice@example.com", none⟩

/-- Active user 2 ("Bob"), used in concrete instances. -/
def u2 : User := ⟨2, some "Bob", "bob@example.com", none⟩

/-- Non-deleted private note 1 owned by user 1. -/
def note1 : Note := ⟨1, "Draft", "hello", false, 0, 0, none, 1, 1, 1⟩

/-- Active VIEW grant of note 1 to user 2. -/
def grant21 : AccessGrant := ⟨1, 2, 1, .VIEW, 0, 0, none⟩

/-- Store with note 1 (owner user 1) shared VIEW with user 2. -/
def st1 : Store := ⟨[u1, u2], [note1], [grant21]⟩

/-- Note 1 soft-deleted (deletedAt = 5). -/
def note1del : Note := ⟨1, "Draft", "hello", false, 0, 0, some 5, 1, 1, 1⟩

/-- Store whose only note, id 1, is soft-deleted. -/
def st1del : Store := ⟨[u1, u2], [note1del], [grant21]⟩

/-! ### Lifecycle operations -/

/-- Modelled from the spec: `UpdateNoteDto` (the file
`dto/update-note.dto.ts` is not among the given sources) — a patch
carrying any subset of title, content, isPublic; an absent field is not
applied. -/
structure UpdateNoteDto where
  title : Option String
  content : Option String
  isPublic : Option Bool
deriving DecidableEq, Repr

/-- The update `updateNote` sends to the store: spread the patch, set
`updatedBy` to the requester; `updatedAt` is bumped to the current time
by the store (Prisma `@updatedAt`, per the spec: updatedAt=now). -/
def applyUpdatePatch (p : UpdateNoteDto) (userId now : Nat) (n : Note) :
    Note :=
  { n with
    title := p.title.getD n.title
    content := p.content.getD n.content
    isPublic := p.isPublic.getD n.isPublic
    updatedBy := userId
    updatedAt := now }

/-- Prisma `note.update` on the unique `id = noteId` row: applies `f` to
that row and returns the updated record; a missing row raises P2025,
which `handleDatabaseError` maps to `NotFoundException`
("Resource not found"). -/
def prismaNoteUpdate (st : Store) (noteId : Nat) (f : Note → Note) :
    Except ApiError (Store × Note) :=
  match st.notes.find? (fun n => n.id == noteId) with
  | none => .error (.notFound "Resource not found")
  | some n =>
      .ok ({ st with notes := st.notes.map fun m =>
              if m.id == noteId then f m else m }, f n)

/-- `updateNote` (notes.service.ts): `ensureUserCanEditNote`, then
`note.update` with the spread patch and `updatedBy = userId`. -/
def updateNote (st : Store) (noteId userId : Nat) (noteData : UpdateNoteDto)
    (now : Nat) : Except ApiError (Store × Note) :=
  match ensureUserCanEditNote st noteId userId with
  | .error e => .error e
  | .ok _ => prismaNoteUpdate st noteId (applyUpdatePatch noteData userId now)

/-- `deleteNote` (notes.service.ts): `ensureUserOwnsNote`, then
`note.update` setting only `deletedAt` on the note row. No other table
is written. -/
def deleteNote (st : Store) (noteId userId : Nat) (now : Nat) :
    Except ApiError (Store × Note) :=
  match ensureUserOwnsNote st noteId userId with
  | .error e => .error e
  | .ok _ => prismaNoteUpdate st noteId (fun n => { n with deletedAt := some now })

/-! ### Query DTO, pagination and search criteria -/

/-- The `orderBy` union type of `GetNotesQueryDto`
(`title | createdAt | updatedAt`). -/
inductive OrderField where
  | title
  | createdAt
  | updatedAt
deriving DecidableEq, Repr

/-- The `sortOrder` union type of `GetNotesQueryDto` (`asc | desc`). -/
inductive SortOrder where
  | asc
  | desc
deriving DecidableEq, Repr

/-- The `accessFilter` union type of `GetNotesQueryDto`
(`owned | edit | view | public`); absent means the default filter. -/
inductive AccessFilterKind where
  | owned
  | edit
  | view
  | public
deriving DecidableEq, Repr

/-- `GetNotesQueryDto` (dto, part_004): every field optional; the union
fields are typed, so a present value is always one of the allowed
constants. -/
structure GetNotesQueryDto where
  skip : Option Int
  take : Option Int
  search : Option String
  orderBy : Option OrderField
  sortOrder : Option SortOrder
  accessFilter : Option AccessFilterKind
  includeDeleted : Option Bool
deriving DecidableEq, Repr

/-- The class-validator rule on `take`: optional; a present value must be
an integer in 1..100 (`@Min(1) @Max(100)`) or the ValidationPipe rejects
the request with an error. -/
def takeValidation (t : Option Int) : Bool :=
  match t with
  | none => true
  | some v => 1 ≤ v && v ≤ 100

/-- The class-validator rule on `skip`: optional; a present value must be
an integer that is at least 0 (`@Min(0)`). -/
def skipValidation (s : Option Int) : Bool :=
  match s with
  | none => true
  | some v => 0 ≤ v

/-- JS `x || d` on an optional number: `d` when x is absent (undefined)
or 0 — both falsy — otherwise x itself (negative numbers are truthy). -/
def jsOrDefault (x : Option Int) (d : Int) : Int :=
  match x with
  | none => d
  | some v => if v = 0 then d else v

/-- `buildPaginationParams` (notes.service.ts):
`skip: query.skip || 0`, `take: Math.min(query.take || 10, 100)`. -/
def buildPaginationParams (q : GetNotesQueryDto) : Int × Int :=
  (jsOrDefault q.skip 0, min (jsOrDefault q.take 10) 100)

/-- `buildOrderByClause` result: the single-field order the query runs
with (`ascending = true` for `asc`). -/
structure OrderClause where
  field : OrderField
  ascending : Bool
deriving DecidableEq, Repr

/-- `buildOrderByClause` (notes.service.ts): a present `orderBy` (always
one of the valid fields, by the DTO type) orders by that field with
`sortOrder || 'asc'`; otherwise the default is `createdAt` descending. -/
def buildOrderByClause (q : GetNotesQueryDto) : OrderClause :=
  match q.orderBy with
  | some f =>
      ⟨f, match q.sortOrder with
          | some .desc => false
          | _ => true⟩
  | none => ⟨.createdAt, false⟩

/-- Substring test on char lists: does `needle` occur contiguously inside
`hay`? -/
def containsSub (hay needle : List Char) : Bool :=
  match hay with
  | [] => needle.isEmpty
  | _ :: t => needle.isPrefixOf hay || containsSub t needle

/-- Prisma `contains` with `mode: 'insensitive'`: case-insensitive
substring match. -/
def ciContains (hay needle : String) : Bool :=
  containsSub (hay.data.map Char.toLower) (needle.data.map Char.toLower)

/-- The `owner` relation of a note: the `users` row its `ownerId`
references. -/
def ownerOf (st : Store) (n : Note) : Option User :=
  st.users.find? (fun u => u.id == n.ownerId)

/-- The search disjunct `buildSearchCriteria` adds for a non-empty
`search` string: trimmed, case-insensitive substring of the note title
OR the owner name OR the owner email (a null name never matches). -/
def searchMatches (st : Store) (s : String) (n : Note) : Bool :=
  ciContains n.title s.trim ||
    (match ownerOf st n with
     | some u =>
         (match u.name with
          | some nm => ciContains nm s.trim
          | none => false)
     | none => false) ||
    (match ownerOf st n with
     | some u => ciContains u.email s.trim
     | none => false)

/-- `buildSearchCriteria` (notes.service.ts), as the predicate its
Prisma where-object denotes: the spread of `baseWhere` (soft-delete
filter unless `includeDeleted` is truthy) and the `accessFilter` chosen
by the switch, with the search disjunction appended under an `AND` key
when `query.search` is truthy (a non-empty string). -/
def buildSearchCriteria (st : Store) (q : GetNotesQueryDto)
    (userId : Nat) : Note → Bool :=
  let baseWhere : Note → Bool := fun n =>
    if q.includeDeleted.getD false then true else n.deletedAt.isNone
  let accessFilter : Note → Bool :=
    match q.accessFilter with
    | some .owned => fun n => n.ownerId == userId
    | some .edit => fun n => noteAccessSome st n userId (some .EDIT)
    | some .view => fun n => noteAccessSome st n userId (some .VIEW)
    | some .public => fun n => n.isPublic
    | none => fun n =>
        n.ownerId == userId || noteAccessSome st n userId none || n.isPublic
  let searchCriteria : Note → Bool := fun n => baseWhere n && accessFilter n
  match q.search with
  | some s =>
      if s = "" then searchCriteria
      else fun n => searchCriteria n && searchMatches st s n
  | none => searchCriteria

/-- The `baseWhere` local of `buildSearchCriteria`, named for reuse in
proofs: the soft-delete filter unless `includeDeleted` is truthy. -/
def baseWhere (q : GetNotesQueryDto) (n : Note) : Bool :=
  if q.includeDeleted.getD false then true else n.deletedAt.isNone

/-- The `accessFilter` local of `buildSearchCriteria`, named for reuse
in proofs: the switch on `query.accessFilter`. -/
def accessFilterOf (st : Store) (q : GetNotesQueryDto) (userId : Nat)
    (n : Note) : Bool :=
  match q.accessFilter with
  | some .owned => n.ownerId == userId
  | some .edit => noteAccessSome st n userId (some .EDIT)
  | some .view => noteAccessSome st n userId (some .VIEW)
  | some .public => n.isPublic
  | none =>
      n.ownerId == userId || noteAccessSome st n userId none || n.isPublic

/-- Spec-side access filter (spec 4.2, written from the spec words):
default = owned OR any active grant OR public; owned / edit / view /
public are the single filters. -/
def accessFilterSpec (st : Store) (q : GetNotesQueryDto) (userId : Nat)
    (n : Note) : Prop :=
  match q.accessFilter with
  | none =>
      n.ownerId = userId ∨
        (∃ g ∈ st.grants, g.noteId = n.id ∧ g.userId = userId ∧
          g.deletedAt = none) ∨
        n.isPublic = true
  | some .owned => n.ownerId = userId
  | some .edit =>
      ∃ g ∈ st.grants, g.noteId = n.id ∧ g.userId = userId ∧
        g.deletedAt = none ∧ g.accessType = .EDIT
  | some .view =>
      ∃ g ∈ st.grants, g.noteId = n.id ∧ g.userId = userId ∧
        g.deletedAt = none ∧ g.accessType = .VIEW
  | some .public => n.isPublic = true

/-- Spec-side top-level conjunction for the listing predicate (spec 4.2,
written from the spec words): (soft-delete filter when includeDeleted is
false) AND (access filter) AND (search disjunction when a non-empty
search string is present). -/
def searchCriteriaSpec (st : Store) (q : GetNotesQueryDto)
    (userId : Nat) (n : Note) : Prop :=
  (q.includeDeleted.getD false = false → n.deletedAt = none) ∧
  accessFilterSpec st q userId n ∧
  (∀ s, q.search = some s → s ≠ "" →
    ciContains n.title s.trim = true ∨
      (∃ u, ownerOf st n = some u ∧
        ∃ nm, u.name = some nm ∧ ciContains nm s.trim = true) ∨
      (∃ u, ownerOf st n = some u ∧ ciContains u.email s.trim = true))

/-! ### Listing and detail projections -/

/-- The `owner` selection of the list/detail queries:
`{ id, name, email }`. -/
structure OwnerInfo where
  id : Nat
  name : Option String
  email : String
deriving DecidableEq, Repr

/-- The `userAccess` metadata attached to results:
`{ accessType }` of the requester's active grant. -/
structure UserAccessInfo where
  accessType : AccessType
deriving DecidableEq, Repr

/-- `NoteListItem` (notes.service.ts): the list projection — content is
deliberately omitted. `owner` is the joined relation row (`Option` only
because the embedding does not assume referential integrity). -/
structure NoteListItem where
  id : Nat
  title : String
  isPublic : Bool
  createdAt : Nat
  updatedAt : Nat
  deletedAt : Option Nat
  owner : Option OwnerInfo
  userAccess : Option UserAccessInfo
deriving DecidableEq, Repr

/-- `NoteDetails` (notes.service.ts): the detail projection — the list
fields plus `content`. -/
structure NoteDetails where
  id : Nat
  title : String
  content : String
  isPublic : Bool
  createdAt : Nat
  updatedAt : Nat
  deletedAt : Option Nat
  owner : Option OwnerInfo
  userAccess : Option UserAccessInfo
deriving DecidableEq, Repr

/-- The owner projection of a note. -/
def ownerInfoOf (st : Store) (n : Note) : Option OwnerInfo :=
  (ownerOf st n).map fun u => ⟨u.id, u.name, u.email⟩

/-- The requester's `userAccess`: first element of the note's active
grants filtered to the requester (`note.noteAccess[0] || undefined`). -/
def userAccessOf (st : Store) (n : Note) (userId : Nat) :
    Option UserAccessInfo :=
  ((st.grants.filter fun g =>
      g.noteId == n.id && g.userId == userId && g.deletedAt.isNone).head?).map
    fun g => ⟨g.accessType⟩

/-- The list projection of one note row for the requester. -/
def toNoteListItem (st : Store) (userId : Nat) (n : Note) : NoteListItem :=
  ⟨n.id, n.title, n.isPublic, n.createdAt, n.updatedAt, n.deletedAt,
    ownerInfoOf st n, userAccessOf st n userId⟩

/-- The detail projection of one note row for the requester. -/
def toNoteDetails (st : Store) (userId : Nat) (n : Note) : NoteDetails :=
  ⟨n.id, n.title, n.content, n.isPublic, n.createdAt, n.updatedAt,
    n.deletedAt, ownerInfoOf st n, userAccessOf st n userId⟩

/-- Comparison on the ordered field. -/
def noteFieldLe (f : OrderField) (a b : Note) : Bool :=
  match f with
  | .title => decide (a.title ≤ b.title)
  | .createdAt => decide (a.createdAt ≤ b.createdAt)
  | .updatedAt => decide (a.updatedAt ≤ b.updatedAt)

/-- The order `findMany` runs with: the clause's field, flipped when
descending. -/
def noteOrder (o : OrderClause) (a b : Note) : Bool :=
  if o.ascending then noteFieldLe o.field a b else noteFieldLe o.field b a

/-- `findAllNotes` (notes.service.ts): `findMany` with the search
criteria, the order clause and skip/take, projected to `NoteListItem`
(the store applies where, then orderBy, then skip, then take). -/
def findAllNotes (st : Store) (userId : Nat) (q : GetNotesQueryDto) :
    List NoteListItem :=
  let criteria := buildSearchCriteria st q userId
  let p := buildPaginationParams q
  let o := buildOrderByClause q
  let rows :=
    ((List.insertionSort (fun a b => noteOrder o a b = true)
        (st.notes.filter criteria)).drop p.1.toNat).take p.2.toNat
  rows.map (toNoteListItem st userId)

/-- `findNoteById` (notes.service.ts): `ensureUserCanViewNote`, then
`findFirst` for the non-deleted row with this id; a missing row raises
`NotFoundException` ("Note not found"). -/
def findNoteById (st : Store) (noteId userId : Nat) :
    Except ApiError NoteDetails :=
  match ensureUserCanViewNote st noteId userId with
  | .error e => .error e
  | .ok _ =>
      match st.notes.find? (fun n => n.id == noteId && n.deletedAt.isNone) with
      | none => .error (.notFound "Note not found")
      | some n => .ok (toNoteDetails st userId n)

/-! ### The grant uniqueness constraint -/

/-- The migration's unique index
`CREATE UNIQUE INDEX "user_note_access_userId_noteId_key" ON
"user_note_access"("userId", "noteId")` (part_003): no two rows of the
table — soft-deleted or not, there is no WHERE clause — share a
(userId, noteId) pair. -/
def user_note_access_userId_noteId_key : List AccessGrant → Bool
  | [] => true
  | g :: rest =>
      rest.all (fun h => !(g.userId == h.userId && g.noteId == h.noteId)) &&
        user_note_access_userId_noteId_key rest

/-- The constraint as the spec words it (spec 5): uniqueness of
(userId, noteId) scoped to non-deleted rows — soft-deleted grants do
not participate. -/
def activeScopedUniqueGrantSpec : List AccessGrant → Bool
  | [] => true
  | g :: rest =>
      (g.deletedAt.isSome ||
        rest.all (fun h =>
          h.deletedAt.isSome ||
            !(g.userId == h.userId && g.noteId == h.noteId))) &&
        activeScopedUniqueGrantSpec rest

/-- Note 1 as `deleteNote` leaves it at time 9. -/
def note1del9 : Note := ⟨1, "Draft", "hello", false, 0, 0, some 9, 1, 1, 1⟩

/-- A concrete patch: retitle to "New" and publish. -/
def patch9 : UpdateNoteDto := ⟨some "New", none, some true⟩

/-- Note 1 after `patch9` applied by user 1 at time 7. -/
def note1patched : Note := ⟨1, "New", "hello", true, 0, 7, none, 1, 1, 1⟩

/-- The store `st1` after `patch9` applied to note 1. -/
def st1patched : Store := ⟨[u1, u2], [note1patched], [grant21]⟩

/-- A soft-deleted grant for (user 2, note 1). -/
def grantDel : AccessGrant := ⟨1, 2, 1, .VIEW, 0, 0, some 3⟩

/-- An active grant for the same (user 2, note 1) pair. -/
def grantActive2 : AccessGrant := ⟨2, 2, 1, .EDIT, 0, 0, none⟩

/-- A public note, soft-deleted at time 3, owned by user 1. -/
def notePubDel : Note := ⟨4, "Pub", "c", true, 0, 0, some 3, 1, 1, 1⟩

/-- Store containing only the public soft-deleted note. -/
def stPubDel : Store := ⟨[u1, u2], [notePubDel], []⟩

/-- Query with includeDeleted = true and accessFilter 'public'. -/
def qPubDel : GetNotesQueryDto :=
  ⟨none, none, none, none, none, some .public, some true⟩

/-- Query with includeDeleted = true and the default access filter. -/
def qDefDel : GetNotesQueryDto :=
  ⟨none, none, none, none, none, none, some true⟩

/-! ### Characterizations of the three checks -/

theorem ensureUserOwnsNote_ok_iff (st : Store) (noteId userId : Nat) :
    ensureUserOwnsNote st noteId userId = .ok () ↔
      ∃ n ∈ st.notes, n.id = noteId ∧ n.ownerId = userId ∧
        n.deletedAt = none := by
  have hstep : ensureUserOwnsNote st noteId userId = .ok () ↔
      (st.notes.find? (fun n =>
        n.id == noteId && n.ownerId == userId &&
          n.deletedAt.isNone)).isSome := by
    unfold ensureUserOwnsNote
    rcases h : st.notes.find? (fun n =>
        n.id == noteId && n.ownerId == userId && n.deletedAt.isNone)
      with _ | n <;> simp [h]
  rw [hstep, List.find?_isSome]
  simp only [Bool.and_eq_true, beq_iff_eq, Option.isNone_iff_eq_none]
  exact exists_congr fun n => by tauto

theorem ensureUserCanEditNote_ok_iff (st : Store) (noteId userId : Nat) :
    ensureUserCanEditNote st noteId userId = .ok () ↔
      ∃ n ∈ st.notes, n.id = noteId ∧ n.deletedAt = none ∧
        (n.ownerId = userId ∨
          ∃ g ∈ st.grants, g.noteId = n.id ∧ g.userId = userId ∧
            g.deletedAt = none ∧ g.accessType = .EDIT) := by
  have hstep : ensureUserCanEditNote st noteId userId = .ok () ↔
      (st.notes.find? (fun n =>
        n.id == noteId && n.deletedAt.isNone &&
          (n.ownerId == userId ||
            noteAccessSome st n userId (some .EDIT)))).isSome := by
    unfold ensureUserCanEditNote
    rcases h : st.notes.find? (fun n =>
        n.id == noteId && n.deletedAt.isNone &&
          (n.ownerId == userId || noteAccessSome st n userId (some .EDIT)))
      with _ | n <;> simp [h]
  rw [hstep, List.find?_isSome]
  simp only [noteAccessSome, List.any_eq_true, Bool.and_eq_true,
    Bool.or_eq_true, beq_iff_eq, Option.isNone_iff_eq_none]
  exact exists_congr fun n => by tauto

theorem ensureUserCanViewNote_ok_iff (st : Store) (noteId userId : Nat) :
    ensureUserCanViewNote st noteId userId = .ok () ↔
      ∃ n ∈ st.notes, n.id = noteId ∧ n.deletedAt = none ∧
        (n.ownerId = userId ∨
          (∃ g ∈ st.grants, g.noteId = n.id ∧ g.userId = userId ∧
            g.deletedAt = none) ∨
          n.isPublic = true) := by
  have hstep : ensureUserCanViewNote st noteId userId = .ok () ↔
      (st.notes.find? (fun n =>
        n.id == noteId && n.deletedAt.isNone &&
          (n.ownerId == userId || noteAccessSome st n userId none ||
            n.isPublic))).isSome := by
    unfold ensureUserCanViewNote
    rcases h : st.notes.find? (fun n =>
        n.id == noteId && n.deletedAt.isNone &&
          (n.ownerId == userId || noteAccessSome st n userId none ||
            n.isPublic)) with _ | n <;> simp [h]
  rw [hstep, List.find?_isSome]
  simp only [noteAccessSome, List.any_eq_true, Bool.and_eq_true,
    Bool.or_eq_true, beq_iff_eq, Option.isNone_iff_eq_none]
  exact exists_congr fun n => by aesop

theorem ensureUserOwnsNote_ok_or_denied (st : Store) (noteId userId : Nat) :
    ensureUserOwnsNote st noteId userId = .ok () ∨
      ensureUserOwnsNote st noteId userId =
        .error (.permissionDenied "You can only delete notes you own") := by
  unfold ensureUserOwnsNote
  rcases h : st.notes.find? (fun n =>
      n.id == noteId && n.ownerId == userId && n.deletedAt.isNone)
    with _ | n <;> simp [h]

theorem ensureUserCanEditNote_ok_or_denied (st : Store) (noteId userId : Nat) :
    ensureUserCanEditNote st noteId userId = .ok () ∨
      ensureUserCanEditNote st noteId userId =
        .error
          (.permissionDenied "You do not have edit access to this note") := by
  unfold ensureUserCanEditNote
  rcases h : st.notes.find? (fun n =>
      n.id == noteId && n.deletedAt.isNone &&
        (n.ownerId == userId || noteAccessSome st n userId (some .EDIT)))
    with _ | n <;> simp [h]

theorem ensureUserCanViewNote_ok_or_denied (st : Store) (noteId userId : Nat) :
    ensureUserCanViewNote st noteId userId = .ok () ∨
      ensureUserCanViewNote st noteId userId =
        .error (.permissionDenied "You do not have access to this note") := by
  unfold ensureUserCanViewNote
  rcases h : st.notes.find? (fun n =>
      n.id == noteId && n.deletedAt.isNone &&
        (n.ownerId == userId || noteAccessSome st n userId none ||
          n.isPublic)) with _ | n <;> simp [h]

/-! ### Claim theorems C1 - C3 -/

/-- C1: for every user U and note N, `ensureUserCanViewNote` succeeds
iff N is non-deleted and (U owns N, or an active grant for (U, N) exists
with any accessType, or N is public); in all other cases it fails with
PermissionDenied. -/
theorem claim1_view_check_characterization (st : Store)
    (noteId userId : Nat) :
    (ensureUserCanViewNote st noteId userId = .ok () ↔
      authorizeViewSpec st noteId userId) ∧
    (¬ authorizeViewSpec st noteId userId →
      ensureUserCanViewNote st noteId userId =
        .error (.permissionDenied "You do not have access to this note")) := by
  have hiff : ensureUserCanViewNote st noteId userId = .ok () ↔
      authorizeViewSpec st noteId userId := by
    rw [ensureUserCanViewNote_ok_iff]
    unfold authorizeViewSpec
    exact exists_congr fun n => by aesop
  refine ⟨hiff, fun hns => ?_⟩
  rcases ensureUserCanViewNote_ok_or_denied st noteId userId with hok | herr
  · exact absurd (hiff.mp hok) hns
  · exact herr

/-- C1 witness: in the concrete store `st1`, user 2 (an active VIEW
grantee) passes the view check, and user 3 (a stranger to the private
note) is denied. -/
theorem claim1_view_check_characterization_witness :
    authorizeViewSpec st1 1 2 ∧
      ensureUserCanViewNote st1 1 3 =
        .error (.permissionDenied "You do not have access to this note") :=
  ⟨(claim1_view_check_characterization st1 1 2).1.mp (by rfl),
    (claim1_view_check_characterization st1 1 3).2
      (by unfold authorizeViewSpec; decide)⟩

/-- C2: the permission hierarchy is monotone: whenever
`ensureUserOwnsNote` succeeds so does `ensureUserCanEditNote`, and
whenever `ensureUserCanEditNote` succeeds so does
`ensureUserCanViewNote`. -/
theorem claim2_permission_hierarchy_monotone (st : Store)
    (noteId userId : Nat) :
    (ensureUserOwnsNote st noteId userId = .ok () →
      ensureUserCanEditNote st noteId userId = .ok ()) ∧
    (ensureUserCanEditNote st noteId userId = .ok () →
      ensureUserCanViewNote st noteId userId = .ok ()) := by
  constructor
  · intro h
    rw [ensureUserOwnsNote_ok_iff] at h
    rw [ensureUserCanEditNote_ok_iff]
    obtain ⟨n, hm, h1, h2, h3⟩ := h
    exact ⟨n, hm, h1, h3, .inl h2⟩
  · intro h
    rw [ensureUserCanEditNote_ok_iff] at h
    rw [ensureUserCanViewNote_ok_iff]
    obtain ⟨n, hm, h1, h2, h3⟩ := h
    refine ⟨n, hm, h1, h2, ?_⟩
    rcases h3 with howner | ⟨g, hg, a, b, c, _⟩
    · exact .inl howner
    · exact .inr (.inl ⟨g, hg, a, b, c⟩)

/-- C2 witness: in the concrete store `st1`, the owner (user 1) passes
all three checks by the two monotonicity steps. -/
theorem claim2_permission_hierarchy_monotone_witness :
    ensureUserCanEditNote st1 1 1 = .ok () ∧
      ensureUserCanViewNote st1 1 1 = .ok () :=
  ⟨(claim2_permission_hierarchy_monotone st1 1 1).1 (by rfl),
    (claim2_permission_hierarchy_monotone st1 1 1).2
      ((claim2_permission_hierarchy_monotone st1 1 1).1 (by rfl))⟩

/-- C3: when `noteId` refers to no note at all or only to soft-deleted
notes, all three checks fail with PermissionDenied (each with its
ForbiddenException message) and never with NotFound. -/
theorem claim3_missing_note_denied_not_notfound (st : Store)
    (noteId userId : Nat)
    (h : ∀ n ∈ st.notes, n.id = noteId → n.deletedAt ≠ none) :
    ensureUserOwnsNote st noteId userId =
        .error (.permissionDenied "You can only delete notes you own") ∧
      ensureUserCanEditNote st noteId userId =
        .error
          (.permissionDenied "You do not have edit access to this note") ∧
      ensureUserCanViewNote st noteId userId =
        .error (.permissionDenied "You do not have access to this note") := by
  have howns : ¬ ensureUserOwnsNote st noteId userId = .ok () := by
    rw [ensureUserOwnsNote_ok_iff]
    rintro ⟨n, hm, hid, _, hdel⟩
    exact h n hm hid hdel
  have hedit : ¬ ensureUserCanEditNote st noteId userId = .ok () := by
    rw [ensureUserCanEditNote_ok_iff]
    rintro ⟨n, hm, hid, hdel, _⟩
    exact h n hm hid hdel
  have hview : ¬ ensureUserCanViewNote st noteId userId = .ok () := by
    rw [ensureUserCanViewNote_ok_iff]
    rintro ⟨n, hm, hid, hdel, _⟩
    exact h n hm hid hdel
  refine ⟨?_, ?_, ?_⟩
  · rcases ensureUserOwnsNote_ok_or_denied st noteId userId with hok | herr
    · exact absurd hok howns
    · exact herr
  · rcases ensureUserCanEditNote_ok_or_denied st noteId userId with hok | herr
    · exact absurd hok hedit
    · exact herr
  · rcases ensureUserCanViewNote_ok_or_denied st noteId userId with hok | herr
    · exact absurd hok hview
    · exact herr

/-- C3 witness: in `st1del` note 1 is soft-deleted, so even its former
owner (user 1) gets PermissionDenied from all three checks. -/
theorem claim3_missing_note_denied_not_notfound_witness :
    ensureUserOwnsNote st1del 1 1 =
        .error (.permissionDenied "You can only delete notes you own") ∧
      ensureUserCanEditNote st1del 1 1 =
        .error
          (.permissionDenied "You do not have edit access to this note") ∧
      ensureUserCanViewNote st1del 1 1 =
        .error (.permissionDenied "You do not have access to this note") :=
  claim3_missing_note_denied_not_notfound st1del 1 1 (by decide)

/-! ### Claim theorems C4 and C9 -/

/-- C4 (code-bug evidence): `deleteNote` never writes the grants table —
on every successful delete the grants are exactly the grants before the
call — and in the concrete store `st1` deleting note 1 leaves the active
grant of user 2 on note 1 untouched (its deletedAt stays null), contrary
to the documented soft-cascade from notes to grants. -/
theorem claim4_delete_note_does_not_cascade_to_grants :
    (∀ (st : Store) (noteId userId now : Nat) (res : Store × Note),
      deleteNote st noteId userId now = .ok res → res.1.grants = st.grants) ∧
    deleteNote st1 1 1 9 = .ok (⟨[u1, u2], [note1del9], [grant21]⟩, note1del9) ∧
    grant21.deletedAt = none := by
  refine ⟨?_, by rfl, by rfl⟩
  intro st noteId userId now res h
  unfold deleteNote at h
  cases hE : ensureUserOwnsNote st noteId userId with
  | error e => rw [hE] at h; cases h
  | ok u =>
      rw [hE] at h
      unfold prismaNoteUpdate at h
      cases hf : st.notes.find? (fun n => n.id == noteId) with
      | none => rw [hf] at h; cases h
      | some n =>
          rw [hf] at h
          cases h
          rfl

/-- C9: a successful `updateNote` changes only the patched fields,
`updatedBy` (to the requester) and `updatedAt` (to now) on the updated
note; `id`, `ownerId`, `createdBy`, `createdAt` and `deletedAt` are
unchanged, every other note is unchanged, and the other tables are
unchanged. -/
theorem claim9_update_note_frame (st : Store) (noteId userId : Nat)
    (p : UpdateNoteDto) (now : Nat) (st' : Store) (res : Note)
    (h : updateNote st noteId userId p now = .ok (st', res)) :
    st'.users = st.users ∧ st'.grants = st.grants ∧
    (∃ n ∈ st.notes, n.id = noteId ∧
      res.id = n.id ∧ res.ownerId = n.ownerId ∧ res.createdBy = n.createdBy ∧
      res.createdAt = n.createdAt ∧ res.deletedAt = n.deletedAt ∧
      res.updatedBy = userId ∧ res.updatedAt = now ∧
      res.title = p.title.getD n.title ∧
      res.content = p.content.getD n.content ∧
      res.isPublic = p.isPublic.getD n.isPublic) ∧
    st'.notes = st.notes.map (fun m =>
      if m.id == noteId then applyUpdatePatch p userId now m else m) := by
  unfold updateNote at h
  cases hE : ensureUserCanEditNote st noteId userId with
  | error e => rw [hE] at h; cases h
  | ok u =>
      rw [hE] at h
      unfold prismaNoteUpdate at h
      cases hf : st.notes.find? (fun n => n.id == noteId) with
      | none => rw [hf] at h; cases h
      | some n =>
          rw [hf] at h
          have hmem := List.mem_of_find?_eq_some hf
          have hid : n.id = noteId := by
            have := List.find?_some hf
            exact beq_iff_eq.mp this
          cases h
          exact ⟨rfl, rfl,
            ⟨n, hmem, hid, rfl, rfl, rfl, rfl, rfl, rfl, rfl, rfl, rfl, rfl⟩,
            rfl⟩

/-- C9 witness: in `st1` the owner applies `patch9` to note 1 at time 7;
the frame conditions hold at this concrete instance. -/
theorem claim9_update_note_frame_witness :
    st1patched.users = st1.users ∧ st1patched.grants = st1.grants ∧
    (∃ n ∈ st1.notes, n.id = 1 ∧
      note1patched.id = n.id ∧ note1patched.ownerId = n.ownerId ∧
      note1patched.createdBy = n.createdBy ∧
      note1patched.createdAt = n.createdAt ∧
      note1patched.deletedAt = n.deletedAt ∧
      note1patched.updatedBy = 1 ∧ note1patched.updatedAt = 7 ∧
      note1patched.title = patch9.title.getD n.title ∧
      note1patched.content = patch9.content.getD n.content ∧
      note1patched.isPublic = patch9.isPublic.getD n.isPublic) ∧
    st1patched.notes = st1.notes.map (fun m =>
      if m.id == 1 then applyUpdatePatch patch9 1 7 m else m) :=
  claim9_update_note_frame st1 1 1 patch9 7 st1patched note1patched (by rfl)

/-! ### Helper lemmas for the uniqueness constraint and the criteria -/

theorem unique_key_filter_le_one (grants : List AccessGrant)
    (h : user_note_access_userId_noteId_key grants = true)
    (p : AccessGrant → Bool) (u n : Nat)
    (hp : ∀ g, p g = true → g.userId = u ∧ g.noteId = n) :
    (grants.filter p).length ≤ 1 := by
  induction grants with
  | nil => simp
  | cons g rest ih =>
      simp only [user_note_access_userId_noteId_key, Bool.and_eq_true,
        List.all_eq_true] at h
      obtain ⟨hall, hrest⟩ := h
      by_cases hg : p g = true
      · have hgu := hp g hg
        have hempty : rest.filter p = [] := by
          rw [List.filter_eq_nil_iff]
          intro x hx hpx
          have hxu := hp x hpx
          have hx2 := hall x hx
          simp [hgu.1, hgu.2, hxu.1, hxu.2] at hx2
        simp [List.filter_cons, hg, hempty]
      · simp only [List.filter_cons, hg, if_neg, Bool.false_eq_true,
          if_false]
        exact ih hrest

theorem buildSearchCriteria_eq (st : Store) (q : GetNotesQueryDto)
    (userId : Nat) (n : Note) :
    buildSearchCriteria st q userId n =
      ((baseWhere q n && accessFilterOf st q userId n) &&
        (match q.search with
         | some s => if s = "" then true else searchMatches st s n
         | none => true)) := by
  unfold buildSearchCriteria baseWhere accessFilterOf
  cases hs : q.search with
  | none =>
      cases hf : q.accessFilter with
      | none => simp
      | some k => cases k <;> simp
  | some s =>
      cases hf : q.accessFilter with
      | none => by_cases hse : s = "" <;> simp [hse]
      | some k => by_cases hse : s = "" <;> cases k <;> simp [hse]

theorem baseWhere_iff (q : GetNotesQueryDto) (n : Note) :
    baseWhere q n = true ↔
      (q.includeDeleted.getD false = false → n.deletedAt = none) := by
  unfold baseWhere
  cases h : q.includeDeleted.getD false <;>
    simp [Option.isNone_iff_eq_none]

theorem accessFilterOf_iff (st : Store) (q : GetNotesQueryDto)
    (userId : Nat) (n : Note) :
    accessFilterOf st q userId n = true ↔
      accessFilterSpec st q userId n := by
  unfold accessFilterOf accessFilterSpec
  cases hf : q.accessFilter with
  | none =>
      simp only [noteAccessSome, List.any_eq_true, Bool.and_eq_true,
        Bool.or_eq_true, beq_iff_eq, Option.isNone_iff_eq_none]
      constructor
      · rintro ((ho | ⟨g, hg, hvals⟩) | hp)
        · exact .inl ho
        · exact .inr (.inl ⟨g, hg, by tauto⟩)
        · exact .inr (.inr hp)
      · rintro (ho | ⟨g, hg, hvals⟩ | hp)
        · exact .inl (.inl ho)
        · exact .inl (.inr ⟨g, hg, by tauto⟩)
        · exact .inr hp
  | some k =>
      cases k with
      | owned => simp
      | edit =>
          simp only [noteAccessSome, List.any_eq_true, Bool.and_eq_true,
            beq_iff_eq, Option.isNone_iff_eq_none]
          exact exists_congr fun g => by tauto
      | view =>
          simp only [noteAccessSome, List.any_eq_true, Bool.and_eq_true,
            beq_iff_eq, Option.isNone_iff_eq_none]
          exact exists_congr fun g => by tauto
      | public => simp

theorem searchMatches_iff (st : Store) (s : String) (n : Note) :
    searchMatches st s n = true ↔
      (ciContains n.title s.trim = true ∨
        (∃ u, ownerOf st n = some u ∧
          ∃ nm, u.name = some nm ∧ ciContains nm s.trim = true) ∨
        (∃ u, ownerOf st n = some u ∧
          ciContains u.email s.trim = true)) := by
  unfold searchMatches
  cases ho : ownerOf st n with
  | none => simp [ho]
  | some u => cases hn : u.name <;> simp [ho, hn, or_assoc]

/-! ### Claim theorems C5 - C8 and C10 -/

/-- C5 counterexample: a state with a soft-deleted grant and an active
grant for the same (userId, noteId) pair satisfies the constraint the
claim describes (uniqueness scoped to non-deleted rows) but violates the
migration's actual unscoped unique index — soft-deleted grants DO
participate in the real constraint. -/
theorem claim5_active_scope_counterexample :
    activeScopedUniqueGrantSpec [grantDel, grantActive2] = true ∧
      user_note_access_userId_noteId_key [grantDel, grantActive2] = false := by
  decide

/-- C5 (amended): the migration's unique index covers all rows of
`user_note_access`, soft-deleted included: any state it accepts has at
most one row per (userId, noteId) — in particular at most one active
grant per pair — but the constraint is not scoped to non-deleted
rows. -/
theorem claim5_unique_index_unscoped (grants : List AccessGrant)
    (h : user_note_access_userId_noteId_key grants = true) (u n : Nat) :
    (grants.filter fun g => g.userId == u && g.noteId == n).length ≤ 1 ∧
      (grants.filter fun g =>
        g.userId == u && g.noteId == n && g.deletedAt.isNone).length ≤ 1 := by
  constructor
  · exact unique_key_filter_le_one grants h _ u n fun g hg => by
      simp only [Bool.and_eq_true, beq_iff_eq] at hg
      exact ⟨hg.1, hg.2⟩
  · exact unique_key_filter_le_one grants h _ u n fun g hg => by
      simp only [Bool.and_eq_true, beq_iff_eq] at hg
      exact ⟨hg.1.1, hg.1.2⟩

/-- C5 witness: the singleton active-grant store satisfies the unscoped
index, so both counts are at most one for the (2, 1) pair. -/
theorem claim5_unique_index_unscoped_witness :
    ([grant21].filter fun g => g.userId == 2 && g.noteId == 1).length ≤ 1 ∧
      ([grant21].filter fun g =>
        g.userId == 2 && g.noteId == 1 && g.deletedAt.isNone).length ≤ 1 :=
  claim5_unique_index_unscoped [grant21] (by decide) 2 1

/-- C6 counterexample: take = -1 is truthy in JS, so `query.take || 10`
keeps -1 and `Math.min (-1) 100 = -1`; the effective take is -1, not in
1..100 — and the DTO validation (`@Min(1) @Max(100)`) rejects -1 with a
validation error rather than clamping it. -/
theorem claim6_take_counterexample :
    (buildPaginationParams
        ⟨none, some (-1), none, none, none, none, none⟩).2 = -1 ∧
      ¬(1 ≤ (buildPaginationParams
          ⟨none, some (-1), none, none, none, none, none⟩).2) ∧
      takeValidation (some (-1)) = false := by
  decide

/-- C6 (amended): take defaults to 10 when absent (and when 0, which is
falsy); 101 clamps to 100 in the service; any take accepted by the DTO
validation yields an effective take in 1..100; but 0, 101 and -1 are
rejected by the DTO validation with an error rather than clamped, and -1
would escape the service clamp. skip defaults to 0, and a skip at or
beyond the number of matching rows makes `findAllNotes` return the empty
list, not an error. -/
theorem claim6_pagination_amended :
    (∀ q : GetNotesQueryDto, q.take = none →
      (buildPaginationParams q).2 = 10) ∧
    (∀ q : GetNotesQueryDto, q.take = some 0 →
      (buildPaginationParams q).2 = 10) ∧
    (∀ q : GetNotesQueryDto, q.take = some 101 →
      (buildPaginationParams q).2 = 100) ∧
    (∀ q : GetNotesQueryDto, takeValidation q.take = true →
      1 ≤ (buildPaginationParams q).2 ∧ (buildPaginationParams q).2 ≤ 100) ∧
    (takeValidation (some 0) = false ∧ takeValidation (some 101) = false ∧
      takeValidation (some (-1)) = false) ∧
    (∀ q : GetNotesQueryDto, q.skip = none →
      (buildPaginationParams q).1 = 0) ∧
    (∀ (st : Store) (userId : Nat) (q : GetNotesQueryDto) (k : Int),
      q.skip = some k →
      (st.notes.filter (buildSearchCriteria st q userId)).length ≤ k.toNat →
      findAllNotes st userId q = []) := by
  refine ⟨?_, ?_, ?_, ?_, by decide, ?_, ?_⟩
  · intro q h; simp [buildPaginationParams, jsOrDefault, h]
  · intro q h; simp [buildPaginationParams, jsOrDefault, h]
  · intro q h; simp [buildPaginationParams, jsOrDefault, h]
  · intro q h
    unfold takeValidation at h
    cases ht : q.take with
    | none => simp [buildPaginationParams, jsOrDefault, ht]
    | some v =>
        rw [ht] at h
        simp only [Bool.and_eq_true, decide_eq_true_eq] at h
        have hv0 : ¬ v = 0 := by omega
        simp only [buildPaginationParams, jsOrDefault, ht, if_neg hv0]
        constructor
        · exact le_min (by omega) (by omega)
        · exact min_le_right v 100
  · intro q h; simp [buildPaginationParams, jsOrDefault, h]
  · intro st userId q k hsk hlen
    unfold findAllNotes
    have hk : jsOrDefault q.skip 0 = k := by
      by_cases hk0 : k = 0 <;> simp [jsOrDefault, hsk, hk0]
    have hlen2 :
        (List.insertionSort
          (fun a b => noteOrder (buildOrderByClause q) a b = true)
          (st.notes.filter (buildSearchCriteria st q userId))).length ≤
          k.toNat := by
      rw [List.length_insertionSort]
      exact hlen
    simp only [buildPaginationParams, hk]
    rw [List.drop_eq_nil_of_le hlen2]
    simp

/-- C7: the predicate `buildSearchCriteria` produces is the top-level
conjunction (soft-delete filter when includeDeleted is false) AND
(access filter — a disjunction owned OR active-grant OR public in the
default case) AND (when a non-empty search string is present, the
trimmed case-insensitive substring disjunction over note title, owner
name and owner email): a note satisfies the predicate iff it satisfies
every present conjunct. -/
theorem claim7_search_criteria_conjunctive (st : Store)
    (q : GetNotesQueryDto) (userId : Nat) (n : Note) :
    buildSearchCriteria st q userId n = true ↔
      searchCriteriaSpec st q userId n := by
  rw [buildSearchCriteria_eq]
  have hb := baseWhere_iff q n
  have ha := accessFilterOf_iff st q userId n
  unfold searchCriteriaSpec
  cases hs : q.search with
  | none =>
      simp only [hs, Bool.and_true, Bool.and_eq_true]
      rw [hb, ha]
      simp
  | some s =>
      by_cases hse : s = ""
      · subst hse
        simp only [hs, if_pos rfl, Bool.and_true, Bool.and_eq_true]
        rw [hb, ha]
        simp
      · have hm := searchMatches_iff st s n
        simp only [hs, if_neg hse, Bool.and_eq_true]
        rw [hb, ha, hm]
        simp only [Option.some.injEq]
        constructor
        · rintro ⟨⟨h1, h2⟩, h3⟩
          exact ⟨h1, h2, fun s2 hseq _ => hseq ▸ h3⟩
        · rintro ⟨h1, h2, h3⟩
          exact ⟨⟨h1, h2⟩, h3 s rfl hse⟩

/-- C8: `findNoteById` never fails with the NotFound of its own fetch
branch: against an unchanging store, a successful view authorization
guarantees the subsequent fetch of the non-deleted note finds a row, so
the NotFound branch is unreachable. -/
theorem claim8_notfound_branch_unreachable (st : Store)
    (noteId userId : Nat) :
    findNoteById st noteId userId ≠ .error (.notFound "Note not found") := by
  intro h
  unfold findNoteById at h
  cases hV : ensureUserCanViewNote st noteId userId with
  | error e =>
      rcases ensureUserCanViewNote_ok_or_denied st noteId userId with
        hok | herr
      · rw [hV] at hok; cases hok
      · rw [hV] at herr
        rw [hV] at h
        cases herr
        cases h
  | ok u =>
      rw [hV] at h
      have hok : ensureUserCanViewNote st noteId userId = .ok () := by
        cases u; exact hV
      rw [ensureUserCanViewNote_ok_iff] at hok
      obtain ⟨n, hmem, hid, hdel, _⟩ := hok
      cases hf : st.notes.find? (fun n => n.id == noteId &&
          n.deletedAt.isNone) with
      | none =>
          have := List.find?_eq_none.mp hf n hmem
          simp [hid, hdel] at this
      | some m =>
          rw [hf] at h
          cases h

/-- C10: list visibility and detail visibility disagree on soft-deleted
public notes: such a note satisfies the listing criteria with
includeDeleted = true under both the 'public' and the default access
filter — and, when the matching rows fit on the default page, appears in
`findAllNotes` — while `findNoteById` fails with PermissionDenied for
every user, including the owner. -/
theorem claim10_list_detail_divergence (st : Store) (n : Note)
    (userId d : Nat) (hmem : n ∈ st.notes) (hdel : n.deletedAt = some d)
    (hpub : n.isPublic = true)
    (hpk : ∀ m ∈ st.notes, m.id = n.id → m = n)
    (hlen : (st.notes.filter
      (buildSearchCriteria st qPubDel userId)).length ≤ 10) :
    buildSearchCriteria st qPubDel userId n = true ∧
      buildSearchCriteria st qDefDel userId n = true ∧
      (∃ item ∈ findAllNotes st userId qPubDel,
        item.id = n.id ∧ item.deletedAt = some d) ∧
      (∀ uid, findNoteById st n.id uid =
        .error (.permissionDenied "You do not have access to this note")) := by
  have hcritP : buildSearchCriteria st qPubDel userId n = true := by
    rw [buildSearchCriteria_eq]
    simp [qPubDel, baseWhere, accessFilterOf, hpub]
  have hcritD : buildSearchCriteria st qDefDel userId n = true := by
    rw [buildSearchCriteria_eq]
    simp [qDefDel, baseWhere, accessFilterOf, hpub]
  refine ⟨hcritP, hcritD, ?_, ?_⟩
  · unfold findAllNotes
    have hmemf : n ∈ st.notes.filter (buildSearchCriteria st qPubDel userId) :=
      List.mem_filter.mpr ⟨hmem, hcritP⟩
    have hperm := List.perm_insertionSort
      (fun a b => noteOrder (buildOrderByClause qPubDel) a b = true)
      (st.notes.filter (buildSearchCriteria st qPubDel userId))
    have hmems : n ∈ List.insertionSort
        (fun a b => noteOrder (buildOrderByClause qPubDel) a b = true)
        (st.notes.filter (buildSearchCriteria st qPubDel userId)) :=
      (hperm.mem_iff).mpr hmemf
    have hlens : (List.insertionSort
        (fun a b => noteOrder (buildOrderByClause qPubDel) a b = true)
        (st.notes.filter (buildSearchCriteria st qPubDel userId))).length ≤
          10 := by
      rw [List.length_insertionSort]; exact hlen
    have hpag : (buildPaginationParams qPubDel) = (0, 10) := by decide
    rw [hpag]
    simp only [show Int.toNat 10 = 10 from rfl,
      show Int.toNat 0 = 0 from rfl, List.drop_zero]
    rw [List.take_of_length_le hlens]
    exact ⟨toNoteListItem st userId n,
      List.mem_map_of_mem (toNoteListItem st userId) hmems,
      rfl, hdel⟩
  · intro uid
    have hfail : ensureUserCanViewNote st n.id uid =
        .error (.permissionDenied "You do not have access to this note") := by
      rcases ensureUserCanViewNote_ok_or_denied st n.id uid with hok | herr
      · rw [ensureUserCanViewNote_ok_iff] at hok
        obtain ⟨m, hm, hid2, hdel2, _⟩ := hok
        have := hpk m hm hid2
        subst this
        rw [hdel] at hdel2
        cases hdel2
      · exact herr
    unfold findNoteById
    rw [hfail]

/-- C10 witness: in `stPubDel` the only note is public and soft-deleted
at time 3; it is listed under includeDeleted with both filters, yet
`findNoteById` denies every user. -/
theorem claim10_list_detail_divergence_witness :
    buildSearchCriteria stPubDel qPubDel 2 notePubDel = true ∧
      buildSearchCriteria stPubDel qDefDel 2 notePubDel = true ∧
      (∃ item ∈ findAllNotes stPubDel 2 qPubDel,
        item.id = notePubDel.id ∧ item.deletedAt = some 3) ∧
      (∀ uid, findNoteById stPubDel notePubDel.id uid =
        .error (.permissionDenied "You do not have access to this note")) :=
  claim10_list_detail_divergence stPubDel notePubDel 2 3 (by decide)
    (by decide) (by decide) (by decide) (by decide)

end NestjsNotes
